import Mathlib

/-!
Shallow embedding of the oumodulesbot repository's core logic:
- `oumodulesbot.py` (root module): code extraction from messages
  (`command_modulename`, `do_embeds`), reply posting and the edit-reconciliation
  cache (`post_modules`, `embeds_cache`), archive-page title scraping
  (`get_module_title`).
- `oumodulesbot/ou_sparql_utils.py`: the layered SPARQL catalog resolver
  (`query_data_open_ac_uk`, `query_xcri`, `query_oldcourses`,
  `find_module_or_qualification`) and the liveness check (`is_really_active`).

Strings are modelled as `List Char`; Python's ASCII-relevant `str.upper`,
`str.lower`, `str.isalnum`, `in` (substring) and `split()` are modelled
explicitly below.  Network I/O is modelled by explicit oracle parameters:
a pure function standing for what each HTTP call would return.
-/

set_option autoImplicit false

namespace OUBot

/-! ## Character and string primitives -/

/-- ASCII letter, as matched by the regex class `[a-zA-Z]`. -/
def isAsciiLetter (c : Char) : Bool :=
  ('a' ≤ c && c ≤ 'z') || ('A' ≤ c && c ≤ 'Z')

/-- ASCII digit, as matched by the regex class `[0-9]`. -/
def isAsciiDigit (c : Char) : Bool :=
  '0' ≤ c && c ≤ '9'

/-- Python `str.upper` on one ASCII character (the codes handled by the bot
are ASCII alphanumerics, so the ASCII case map is the relevant fragment). -/
def pyUpperChar (c : Char) : Char :=
  if 'a' ≤ c && c ≤ 'z' then Char.ofNat (c.toNat - 32) else c

/-- Python `str.lower` on one ASCII character. -/
def pyLowerChar (c : Char) : Char :=
  if 'A' ≤ c && c ≤ 'Z' then Char.ofNat (c.toNat + 32) else c

/-- Python `str.upper`. -/
def pyUpper (s : List Char) : List Char := s.map pyUpperChar

/-- Python `str.lower`. -/
def pyLower (s : List Char) : List Char := s.map pyLowerChar

/-- Python `str.isalnum` restricted to ASCII: non-empty and every character a
letter or digit. -/
def pyIsAlnum (s : List Char) : Bool :=
  !s.isEmpty && s.all (fun c => isAsciiLetter c || isAsciiDigit c)

/-- `needle` occurs at the start of `hay` (helper for substring search). -/
def startsWithL : List Char → List Char → Bool
  | [], _ => true
  | _ :: _, [] => false
  | a :: n, b :: h => a == b && startsWithL n h

/-- Python's `needle in haystack` on strings: contiguous-substring test. -/
def strContains (needle hay : List Char) : Bool :=
  (List.range (hay.length + 1)).any (fun i => startsWithL needle (hay.drop i))

/-- Python whitespace, for `str.split()` with no argument. -/
def isPySpace (c : Char) : Bool :=
  c == ' ' || c == '\t' || c == '\n' || c == '\r' || c == '\x0b' || c == '\x0c'

/-- Helper for `pySplit`: accumulates the current word (reversed). -/
def pySplitAux : List Char → List Char → List (List Char)
  | [], acc => if acc.isEmpty then [] else [acc.reverse]
  | c :: rest, acc =>
    if isPySpace c then
      if acc.isEmpty then pySplitAux rest [] else acc.reverse :: pySplitAux rest []
    else
      pySplitAux rest (c :: acc)

/-- Python `str.split()` with no argument: split on runs of whitespace,
discarding empty pieces. -/
def pySplit (s : List Char) : List (List Char) := pySplitAux s []

/-! ## The inline-mention regex `![a-zA-Z]{1,3}[0-9]{1,3}` (`EMBED_RE`)

`re.findall` scans left to right for non-overlapping matches.  For this
pattern, greedy matching with backtracking reduces to: at a `!`, take the
maximal run of letters capped at 3; the match succeeds iff that run is
non-empty and is followed by a digit (taking fewer letters cannot help,
because the character after a shorter prefix of a letter run is again a
letter); then take the maximal run of digits capped at 3. -/

/-- Take up to `n` leading characters satisfying `p`, returning them and the
remainder. -/
def takeUpTo (p : Char → Bool) : Nat → List Char → List Char × List Char
  | 0, l => ([], l)
  | _ + 1, [] => ([], [])
  | n + 1, c :: rest =>
    if p c then
      let (a, b) := takeUpTo p n rest
      (c :: a, b)
    else
      ([], c :: rest)

/-- Attempt to match `[a-zA-Z]{1,3}[0-9]{1,3}` at the head of `s` (the part
after a `!`); on success returns the matched text and the remainder. -/
def matchEmbedBody (s : List Char) : Option (List Char × List Char) :=
  let (ls, r1) := takeUpTo isAsciiLetter 3 s
  if ls.isEmpty then none
  else
    let (ds, r2) := takeUpTo isAsciiDigit 3 r1
    if ds.isEmpty then none else some (ls ++ ds, r2)

theorem takeUpTo_append (p : Char → Bool) :
    ∀ (n : Nat) (l : List Char), (takeUpTo p n l).1 ++ (takeUpTo p n l).2 = l := by
  intro n
  induction n with
  | zero => intro l; simp [takeUpTo]
  | succ n ih =>
    intro l
    cases l with
    | nil => simp [takeUpTo]
    | cons c rest =>
      by_cases h : p c
      · simp [takeUpTo, h, ih rest]
      · simp [takeUpTo, h]

theorem matchEmbedBody_length {s m rem : List Char}
    (h : matchEmbedBody s = some (m, rem)) : rem.length < s.length := by
  unfold matchEmbedBody at h
  by_cases h1 : ((takeUpTo isAsciiLetter 3 s).1).isEmpty
  · simp [h1] at h
  · by_cases h2 : ((takeUpTo isAsciiDigit 3 (takeUpTo isAsciiLetter 3 s).2).1).isEmpty
    · simp [h1, h2] at h
    · simp [h1, h2] at h
      have hlen1 := congrArg List.length (takeUpTo_append isAsciiLetter 3 s)
      have hlen2 :=
        congrArg List.length
          (takeUpTo_append isAsciiDigit 3 (takeUpTo isAsciiLetter 3 s).2)
      simp only [List.length_append] at hlen1 hlen2
      have hls0 : 0 < ((takeUpTo isAsciiLetter 3 s).1).length :=
        List.length_pos.mpr (by simpa using h1)
      have hds0 :
          0 < ((takeUpTo isAsciiDigit 3 (takeUpTo isAsciiLetter 3 s).2).1).length :=
        List.length_pos.mpr (by simpa using h2)
      have hr := congrArg List.length h.2
      omega

/-- Scanning loop for `re.findall(EMBED_RE, text)`, structurally recursive
on a fuel argument.  Every recursive call consumes at least one character
(`matchEmbedBody_length`), so fuel equal to the remaining length never runs
out. -/
def findallEmbedsAux : Nat → List Char → List (List Char)
  | 0, _ => []
  | _ + 1, [] => []
  | fuel + 1, c :: rest =>
    if c = '!' then
      match matchEmbedBody rest with
      | some (m, rem) => ('!' :: m) :: findallEmbedsAux fuel rem
      | none => findallEmbedsAux fuel rest
    else
      findallEmbedsAux fuel rest

/-- `re.findall(EMBED_RE, text)`: all non-overlapping matches of
`![a-zA-Z]{1,3}[0-9]{1,3}`, in order, each including the leading `!`. -/
def findallEmbeds (s : List Char) : List (List Char) :=
  findallEmbedsAux s.length s

/-! ## Code extraction (`command_modulename` and `do_embeds` in
`oumodulesbot.py`) -/

def MODULES_COUNT_LIMIT : Nat := 5

/-- `codes = message.content.split()[1:]` in `command_modulename`. -/
def command_codes (content : List Char) : List (List Char) :=
  (pySplit content).drop 1

/-- Per-token normalization in `command_modulename`:
`code = code.upper().replace('!', '')`. -/
def normalizeToken (t : List Char) : List Char :=
  (pyUpper t).filter (fun c => c != '!')

/-- The format validation in `command_modulename`:
`code.isalnum() and 4 <= len(code) <= 6`. -/
def validCode (c : List Char) : Bool :=
  pyIsAlnum c && decide (4 ≤ c.length) && decide (c.length ≤ 6)

/-- The codes `command_modulename` passes to `get_module_title`
(resolution), in order: the first `MODULES_COUNT_LIMIT` tokens, normalized,
kept only when they pass validation. -/
def command_lookups (content : List Char) : List (List Char) :=
  ((command_codes content).take MODULES_COUNT_LIMIT).filterMap
    (fun t =>
      let c := normalizeToken t
      if validCode c then some c else none)

/-- The `modules` list `command_modulename` accumulates, given a resolver
(`get_module_title`) outcome per code: `(code, title)` for each code whose
resolution yields a title. -/
def command_modules (resolver : List Char → Option (List Char))
    (content : List Char) : List (List Char × List Char) :=
  (command_lookups content).filterMap
    (fun c => (resolver c).map (fun t => (c, t)))

/-- The posting decision at the end of `command_modulename`:
`if any_found or len(codes) == 1: self.post_modules(event, message, modules)`.
`some modules` means `post_modules` is called with that list; `none` means
the bot stays silent. -/
def command_posts (resolver : List Char → Option (List Char))
    (content : List Char) : Option (List (List Char × List Char)) :=
  let modules := command_modules resolver content
  if !modules.isEmpty || (command_codes content).length = 1 then some modules
  else none

/-- The matches `do_embeds` iterates over:
`self.EMBED_RE.findall(event.message.content)[:self.MODULES_COUNT_LIMIT]`. -/
def inline_matches (content : List Char) : List (List Char) :=
  (findallEmbeds content).take MODULES_COUNT_LIMIT

/-- The codes `do_embeds` passes to `get_module_title`: `module[1:]` for
each match — note: not uppercased. -/
def inline_lookups (content : List Char) : List (List Char) :=
  (inline_matches content).map (List.drop 1)

/-- The candidate codes of the inline mode, as they appear in the modules
list (`module[1:].upper()`). -/
def inline_candidates (content : List Char) : List (List Char) :=
  (inline_lookups content).map pyUpper

/-- The `modules` list `do_embeds` accumulates:
`(module[1:].upper(), title)` for each match whose resolution succeeds. -/
def do_embeds_modules (resolver : List Char → Option (List Char))
    (content : List Char) : List (List Char × List Char) :=
  (inline_lookups content).filterMap
    (fun m => (resolver m).map (fun t => (pyUpper m, t)))

/-- The posting decision at the end of `do_embeds`: post only
`if any_found`. -/
def do_embeds_posts (resolver : List Char → Option (List Char))
    (content : List Char) : Option (List (List Char × List Char)) :=
  let modules := do_embeds_modules resolver content
  if !modules.isEmpty then some modules else none

/-! ## Reply construction and edit reconciliation (`post_modules`,
`embeds_cache`) -/

/-- What `post_modules` builds from `modules`: for more than one module, one
embed field per module (`name=code, value=' * {} '.format(title),
inline=True`); otherwise `code, title = modules[0]` and
`content = '{}: {}'.format(code, title)`.  `none` models the `IndexError`
raised by `modules[0]` on an empty list. -/
inductive PostBody where
  | single (content : List Char)
  | fields (fs : List (List Char × List Char))
deriving DecidableEq, Repr

/-- `' * {} '.format(title)`. -/
def fieldValue (title : List Char) : List Char :=
  (" * ".data) ++ title ++ (" ".data)

def post_modules_body (modules : List (List Char × List Char)) :
    Option PostBody :=
  if modules.length > 1 then
    some (.fields (modules.map (fun p => (p.1, fieldValue p.2))))
  else
    match modules with
    | m :: _ => some (.single (m.1 ++ (": ".data) ++ m.2))
    | [] => none

section Reconciler

variable {C V : Type}

/-- Association lookup in the LRU cache, modelled as a list ordered
most-recently-touched first (`event.message.id in embeds_cache` followed by
`embeds_cache[event.message.id]`). -/
def lruFind (k : Nat) : List (Nat × C × V) → Option (C × V)
  | [] => none
  | e :: rest => if e.1 = k then some e.2 else lruFind k rest

/-- The recency effect of pylru's `__getitem__`: a hit entry moves to the
front. -/
def lruTouch (k : Nat) (c : List (Nat × C × V)) : List (Nat × C × V) :=
  match lruFind k c with
  | none => c
  | some v => (k, v) :: c.filter (fun p => p.1 ≠ k)

/-- pylru's `__setitem__`: insert (or update) at the front and truncate to
the capacity, dropping the tail — the least-recently-touched entry. -/
def lruPut (cap : Nat) (k : Nat) (v : C × V) (c : List (Nat × C × V)) :
    List (Nat × C × V) :=
  ((k, v) :: c.filter (fun p => p.1 ≠ k)).take cap

/-- `embeds_cache = pylru.lrucache(1000)`. -/
def embeds_cache_capacity : Nat := 1000

inductive ReplyAction (C V : Type) where
  | editMsg (chan : C) (msg : V)
  | newReply
deriving DecidableEq, Repr

/-- The reconciliation core of `post_modules`: if the triggering message id
is cached, edit the recorded reply via
`channels_messages_modify(modify_c.id, modify_m.id, ...)` (a cached channel
object is always truthy); otherwise send a new reply and record
`(event.channel, reply)` under the message id. Returns the action taken and
the cache afterwards. -/
def post_modules_reconcile (msgId : Nat) (chan : C) (newReply : V)
    (cache : List (Nat × C × V)) : ReplyAction C V × List (Nat × C × V) :=
  match lruFind msgId cache with
  | some cm => (.editMsg cm.1 cm.2, lruTouch msgId cache)
  | none =>
    (.newReply, lruPut embeds_cache_capacity msgId (chan, newReply) cache)

end Reconciler

/-! ## SPARQL catalog layer (`oumodulesbot/ou_sparql_utils.py`) -/

/-- One result binding after `query_data_open_ac_uk`'s projection
`{k: result[k]["value"] for k in result}`, as consumed by
`find_module_or_qualification`: `result["title"]` and `result.get("url")`. -/
structure Binding where
  title : List Char
  url : Option (List Char)
deriving DecidableEq, Repr

/-- `Result(code, title, url)` from `ou_utils` (a plain named tuple, as used
by `find_module_or_qualification`). -/
structure Result where
  code : List Char
  title : List Char
  url : Option (List Char)
deriving DecidableEq, Repr

/-- What one HTTP round trip of `query_data_open_ac_uk` can yield:
a `httpx.ReadTimeout` (the only transport exception the source catches);
any other transport exception raised by `client.get` (`httpx.ConnectError`,
`httpx.ConnectTimeout`, `httpx.ReadError`, ... — none of them caught);
a response whose JSON decoding or `json["results"]["bindings"]` access
raises; or a binding list in which each binding's projection either
succeeds or raises (a malformed binding). -/
inductive SparqlResponse where
  | readTimeout
  | otherTransportError
  | badJson
  | bindings (bs : List (Except Unit Binding))

/-- The binding loop of `query_data_open_ac_uk`: append projected bindings
until one raises; the exception handler returns whatever `retval` holds at
that point. -/
def collectBindings : List (Except Unit Binding) → List Binding
  | [] => []
  | .ok b :: rest => b :: collectBindings rest
  | .error _ :: _ => []

/-- `query_data_open_ac_uk`: the `except httpx.ReadTimeout` clause catches
only a read timeout, yielding `[]`; every other transport exception from
`client.get` escapes the `try` and propagates to the caller
(`Except.error`); a JSON parsing exception is caught and yields the
bindings accumulated so far (`[]` when the failure precedes the loop). -/
def query_data_open_ac_uk : SparqlResponse → Except Unit (List Binding)
  | .readTimeout => .ok []
  | .otherTransportError => .error ()
  | .badJson => .ok []
  | .bindings bs => .ok (collectBindings bs)

/-- The three SPARQL queries issued by the resolver, in issue order. -/
inductive QueryTag where
  | xcriCourses
  | xcriQualifications
  | oldCourses
deriving DecidableEq, Repr

/-- `query_xcri`: issues the courses query, then the qualifications query,
and returns `courses + qualifications`. The oracle gives the binding list
each query returns for the code substituted into the filter. -/
def query_xcri (oracle : QueryTag → List Binding) : List Binding :=
  oracle .xcriCourses ++ oracle .xcriQualifications

/-- `query_oldcourses`. -/
def query_oldcourses (oracle : QueryTag → List Binding) : List Binding :=
  oracle .oldCourses

/-- `find_module_or_qualification`: uppercases the code, builds the
exact-match filter with it (the oracle is consulted at the uppercased code),
takes the first `query_xcri` binding if any, otherwise the first
`query_oldcourses` binding, otherwise `None`.  Also returns the list of
queries issued, in order, so that short-circuiting is observable. -/
def find_module_or_qualification
    (oracle : List Char → QueryTag → List Binding) (code : List Char) :
    Option Result × List QueryTag :=
  let ucode := pyUpper code
  let q := oracle ucode
  match query_xcri q with
  | r :: _ =>
    (some ⟨ucode, r.title, r.url⟩, [.xcriCourses, .xcriQualifications])
  | [] =>
    match query_oldcourses q with
    | r :: _ =>
      (some ⟨ucode, r.title, r.url⟩,
        [.xcriCourses, .xcriQualifications, .oldCourses])
    | [] =>
      (none, [.xcriCourses, .xcriQualifications, .oldCourses])

/-! ## Archive-page scrape (`get_module_title` in `oumodulesbot.py`) -/

/-- `get_module_title`: the `requests.get` transport may raise — caught,
returning `None`; otherwise `titles` stands for
`MODULE_RE.findall(html)` on the fetched page (the pure regex scan of the
HTML), and the function returns `title[0] if title else None`. -/
def get_module_title (fetch : Except Unit (List (List Char))) :
    Option (List Char) :=
  match fetch with
  | .error _ => none
  | .ok titles => titles.head?

/-! ## Liveness check (`is_really_active` in `ou_sparql_utils.py`) -/

/-- The outcome of `httpx.head(url, follow_redirects=True)`:
`url` is `str(result.url)` (the final redirected URL) and `status_code` the
final status. -/
structure HeadResponse where
  url : List Char
  status_code : Nat
deriving DecidableEq, Repr

/-- `is_really_active`: `None` when `url` is falsy (no HTTP call at all);
otherwise one HEAD attempt per recursion level — the oracle gives attempt
`retry_num`'s outcome.  A transport exception increments `retry_num` and
recurses while `retry_num <= retries`, else yields `False`; a completed
request yields `code.lower() in str(result.url).lower() and
result.status_code == 200`. -/
def is_really_active (head : Nat → Except Unit HeadResponse)
    (url : Option (List Char)) (code : List Char)
    (retries : Nat) (retry_num : Nat) : Option Bool :=
  match url with
  | none => none
  | some _ =>
    match head retry_num with
    | .error _ =>
      if _h : retry_num + 1 ≤ retries then
        is_really_active head url code retries (retry_num + 1)
      else
        some false
    | .ok result =>
      some (strContains (pyLower code) (pyLower result.url)
        && result.status_code == 200)
termination_by retries + 1 - retry_num
decreasing_by omega

/-! ## Reply formatting of the current bot (spec-modelled)

The reply formatter with liveness-dependent links and the deprecation
suffix lives in `oumodulesbot/main.py`, which is not under `src/` — only
its tests (`tests/test_oumodulesbot.py`) are.  The definitions below are
modelled from the spec (§4.4) and the expectations hard-coded in those
tests. -/

/-- Modelled from the spec: the fixed deprecation notice appended to every
reply (`RESPONSE_SUFFIX` asserted verbatim by the tests). -/
def response_suffix : List Char :=
  ("\nNote: !codes are being retired. Please use /oulookup, or skip !"
    ++ " and right-click/long-touch a message → Apps → OU Lookup.").data

/-- A resolved module as the formatter sees it: `active` is the liveness
verdict — `some true` / `some false` from a check, `none` when no check was
needed. -/
structure ModuleInfo where
  code : List Char
  title : List Char
  url : Option (List Char)
  active : Option Bool
deriving DecidableEq, Repr

/-- Modelled from the spec: formatted title of one module
(`oumodulesbot/main.py` is missing from src/).  A markdown link
`[title](<url>)` when a url is present and the module is active or no
liveness check was needed; plain title otherwise. -/
def format_title (m : ModuleInfo) : List Char :=
  match m.url with
  | some u =>
    if m.active = some false then m.title
    else ("[".data) ++ m.title ++ ("](<".data) ++ u ++ (">)".data)
  | none => m.title

/-- A chat reply: message content plus embed fields. -/
structure Reply where
  content : List Char
  fields : List (List Char × List Char)
deriving DecidableEq, Repr

/-- Modelled from the spec: reply construction of `oumodulesbot/main.py`
(missing from src/).  Exactly one module: content
`"{code}: {formatted title}"`; two or more: one inline field per module,
name = code, value = formatted title.  The deprecation suffix is appended
to every reply's content. -/
def format_reply (modules : List ModuleInfo) : Reply :=
  if modules.length > 1 then
    ⟨response_suffix, modules.map (fun m => (m.code, format_title m))⟩
  else
    match modules with
    | m :: _ => ⟨m.code ++ (": ".data) ++ format_title m ++ response_suffix, []⟩
    | [] => ⟨response_suffix, []⟩

/-! ## Helper lemmas -/

theorem char_le_iff {a b : Char} : a ≤ b ↔ a.toNat ≤ b.toNat :=
  ⟨fun h => h, fun h => h⟩

theorem toNat_ofNat_small {n : Nat} (h : n < 55296) :
    (Char.ofNat n).toNat = n := by
  unfold Char.ofNat
  split
  · rfl
  · next hh => exact absurd (Or.inl h) hh

theorem pyUpperChar_idem (c : Char) :
    pyUpperChar (pyUpperChar c) = pyUpperChar c := by
  by_cases h : ('a' ≤ c && c ≤ 'z') = true
  · have ha : 'a' ≤ c := of_decide_eq_true ((Bool.and_eq_true _ _).mp h).1
    have hz : c ≤ 'z' := of_decide_eq_true ((Bool.and_eq_true _ _).mp h).2
    have h1 : 97 ≤ c.toNat := char_le_iff.mp ha
    have h2 : c.toNat ≤ 122 := char_le_iff.mp hz
    have hv : (Char.ofNat (c.toNat - 32)).toNat = c.toNat - 32 :=
      toNat_ofNat_small (by omega)
    have hcond : ('a' ≤ Char.ofNat (c.toNat - 32)
        && Char.ofNat (c.toNat - 32) ≤ 'z') = false := by
      apply Bool.and_eq_false_iff.mpr
      left
      simp only [decide_eq_false_iff_not]
      intro hle
      have h3 : (97 : Nat) ≤ (Char.ofNat (c.toNat - 32)).toNat :=
        char_le_iff.mp hle
      rw [hv] at h3
      omega
    unfold pyUpperChar
    simp only [h, if_true, hcond]
    simp
  · unfold pyUpperChar
    simp only [Bool.not_eq_true] at h
    simp [h]

theorem pyUpper_idem (s : List Char) : pyUpper (pyUpper s) = pyUpper s := by
  simp [pyUpper, Function.comp_def, pyUpperChar_idem]

/-! ## Claim theorems -/

/-- C1: catalog resolution short-circuits in a fixed layer order — the
courses query is consulted before the qualifications query, first non-empty
result wins with courses first, then the legacy old-courses query; the
resolver returns the `Result` built from the first layer that yields a
binding, and `None` only when every layer yields no binding (the old-courses
query being issued exactly when the structured layer is empty). -/
theorem claim_C1_resolution_order
    (oracle : List Char → QueryTag → List Binding) (code : List Char) :
    (find_module_or_qualification oracle code).1 =
      ((oracle (pyUpper code) .xcriCourses
          ++ oracle (pyUpper code) .xcriQualifications
          ++ oracle (pyUpper code) .oldCourses).head?).map
        (fun r => Result.mk (pyUpper code) r.title r.url)
    ∧ ((find_module_or_qualification oracle code).1 = none ↔
        oracle (pyUpper code) .xcriCourses = []
          ∧ oracle (pyUpper code) .xcriQualifications = []
          ∧ oracle (pyUpper code) .oldCourses = [])
    ∧ (find_module_or_qualification oracle code).2.take 2 =
        [QueryTag.xcriCourses, QueryTag.xcriQualifications]
    ∧ (QueryTag.oldCourses ∈ (find_module_or_qualification oracle code).2 ↔
        oracle (pyUpper code) .xcriCourses = []
          ∧ oracle (pyUpper code) .xcriQualifications = []) := by
  simp only [find_module_or_qualification, query_xcri, query_oldcourses]
  cases hc : oracle (pyUpper code) QueryTag.xcriCourses with
  | cons r rest => simp [hc]
  | nil =>
    cases hq : oracle (pyUpper code) QueryTag.xcriQualifications with
    | cons r rest => simp [hc, hq]
    | nil =>
      cases ho : oracle (pyUpper code) QueryTag.oldCourses with
      | cons r rest => simp [hc, hq, ho]
      | nil => simp [hc, hq, ho]

section ReconcilerLemmas

variable {C V : Type}

/-- Well-formedness of the LRU cache: distinct identities, within capacity. -/
def lruWF (cap : Nat) (c : List (Nat × C × V)) : Prop :=
  (c.map Prod.fst).Nodup ∧ c.length ≤ cap

theorem lruFind_none_iff {k : Nat} {c : List (Nat × C × V)} :
    lruFind k c = none ↔ ∀ p ∈ c, p.1 ≠ k := by
  induction c with
  | nil => simp [lruFind]
  | cons e rest ih =>
    by_cases he : e.1 = k
    · simp [lruFind, he]
    · simp [lruFind, he, ih]

theorem lruFilter_eq_self {k : Nat} {c : List (Nat × C × V)}
    (h : lruFind k c = none) : c.filter (fun p => p.1 ≠ k) = c := by
  apply List.filter_eq_self.mpr
  intro p hp
  simpa using lruFind_none_iff.mp h p hp

theorem lruFilter_keys_nodup {k : Nat} {c : List (Nat × C × V)}
    (h : (c.map Prod.fst).Nodup) :
    ((c.filter (fun p => p.1 ≠ k)).map Prod.fst).Nodup :=
  h.sublist ((List.filter_sublist c).map Prod.fst)

theorem lruFilter_not_mem {k : Nat} {c : List (Nat × C × V)} :
    k ∉ (c.filter (fun p => p.1 ≠ k)).map Prod.fst := by
  intro hmem
  obtain ⟨p, hp, hk⟩ := List.mem_map.mp hmem
  have := (List.mem_filter.mp hp).2
  simp [hk] at this

theorem lruFilter_length_lt {k : Nat} {v : C × V} {c : List (Nat × C × V)}
    (h : lruFind k c = some v) :
    (c.filter (fun p => p.1 ≠ k)).length < c.length := by
  induction c with
  | nil => simp [lruFind] at h
  | cons e rest ih =>
    by_cases he : e.1 = k
    · have hf : (e :: rest).filter (fun p => p.1 ≠ k) =
          rest.filter (fun p => p.1 ≠ k) := by
        simp [List.filter_cons, he]
      rw [hf]
      have := List.length_filter_le (fun p => decide (p.1 ≠ k)) rest
      simp only [List.length_cons]
      omega
    · have hf : (e :: rest).filter (fun p => p.1 ≠ k) =
          e :: rest.filter (fun p => p.1 ≠ k) := by
        simp [List.filter_cons, he]
      rw [hf]
      have h2 : lruFind k rest = some v := by
        simpa [lruFind, he] using h
      simp only [List.length_cons]
      exact Nat.succ_lt_succ (ih h2)

theorem lruFind_lruPut (cap k : Nat) (v : C × V) (c : List (Nat × C × V))
    (h : 1 ≤ cap) : lruFind k (lruPut cap k v c) = some v := by
  unfold lruPut
  obtain ⟨n, rfl⟩ : ∃ n, cap = n + 1 := ⟨cap - 1, by omega⟩
  simp [List.take_succ_cons, lruFind]

end ReconcilerLemmas

/-- C2: per triggering-message identity, a recorded prior reply means an
edit event edits that reply in place (no new reply); no recorded prior
reply means a new reply is sent and `(channel, reply-handle)` is recorded
under the identity; the structure keeps at most 1000 distinct identities;
an insertion into a full cache evicts the least-recently-touched entry
(the tail of the recency list). -/
theorem claim_C2_reply_reconciliation {C V : Type}
    (msgId : Nat) (chan : C) (reply : V) (cache : List (Nat × C × V)) :
    (∀ ch m, lruFind msgId cache = some (ch, m) →
      (post_modules_reconcile msgId chan reply cache).1 =
        ReplyAction.editMsg ch m)
    ∧ (lruFind msgId cache = none →
      (post_modules_reconcile msgId chan reply cache).1 =
          ReplyAction.newReply
        ∧ lruFind msgId (post_modules_reconcile msgId chan reply cache).2 =
          some (chan, reply))
    ∧ (lruWF embeds_cache_capacity cache →
      lruWF embeds_cache_capacity
        (post_modules_reconcile msgId chan reply cache).2)
    ∧ (cache.length = embeds_cache_capacity → lruFind msgId cache = none →
      (post_modules_reconcile msgId chan reply cache).2 =
        (msgId, chan, reply) :: cache.dropLast) := by
  refine ⟨?_, ?_, ?_, ?_⟩
  · intro ch m h
    simp [post_modules_reconcile, h]
  · intro h
    constructor
    · simp [post_modules_reconcile, h]
    · simp only [post_modules_reconcile, h]
      exact lruFind_lruPut _ _ _ _ (by norm_num [embeds_cache_capacity])
  · intro ⟨hnd, hlen⟩
    unfold post_modules_reconcile
    cases hf : lruFind msgId cache with
    | some cm =>
      simp only []
      constructor
      · simp only [lruTouch, hf, List.map_cons]
        exact List.nodup_cons.mpr ⟨lruFilter_not_mem, lruFilter_keys_nodup hnd⟩
      · simp only [lruTouch, hf, List.length_cons]
        have := lruFilter_length_lt hf
        omega
    | none =>
      simp only [lruPut]
      constructor
      · have hnodup : (((msgId, chan, reply)
            :: cache.filter (fun p => p.1 ≠ msgId)).map Prod.fst).Nodup :=
          List.nodup_cons.mpr ⟨lruFilter_not_mem, lruFilter_keys_nodup hnd⟩
        exact hnodup.sublist ((List.take_sublist _ _).map Prod.fst)
      · exact List.length_take_le _ _
  · intro hlen hf
    simp only [post_modules_reconcile, hf, lruPut, lruFilter_eq_self hf]
    rw [List.dropLast_eq_take, hlen]
    have h1000 : embeds_cache_capacity = 999 + 1 := by
      norm_num [embeds_cache_capacity]
    rw [h1000, List.take_succ_cons]

/-- A concrete full cache (1000 entries, none keyed 8) for the eviction
part of the C2 witness. -/
def witnessCache : List (Nat × Nat × Nat) := List.replicate 1000 (7, 0, 0)

theorem lruFind_replicate_ne {k j : Nat} (v : Nat × Nat) (n : Nat)
    (h : j ≠ k) : lruFind k (List.replicate n (j, v)) = none := by
  induction n with
  | zero => simp [lruFind]
  | succ n ih => simp [List.replicate_succ, lruFind, h, ih]

/-- Witness for C2 at concrete inputs: a cache hit edits the recorded
reply, a miss sends and records a new one, well-formedness is preserved,
and inserting into a full 1000-entry cache evicts the tail. -/
theorem claim_C2_witness :
    (post_modules_reconcile 5 1 2 [(5, 3, 4)]).1 = ReplyAction.editMsg 3 4
    ∧ (post_modules_reconcile 6 1 2 [(5, 3, 4)]).1 = ReplyAction.newReply
    ∧ lruFind 6 (post_modules_reconcile 6 1 2 [(5, 3, 4)]).2 = some (1, 2)
    ∧ lruWF embeds_cache_capacity (post_modules_reconcile 6 1 2 [(5, 3, 4)]).2
    ∧ (post_modules_reconcile 8 1 2 witnessCache).2 =
        (8, 1, 2) :: witnessCache.dropLast := by
  refine ⟨?_, ?_, ?_, ?_, ?_⟩
  · exact (claim_C2_reply_reconciliation 5 1 2 [(5, 3, 4)]).1 3 4 (by decide)
  · exact ((claim_C2_reply_reconciliation 6 1 2 [(5, 3, 4)]).2.1 (by decide)).1
  · exact ((claim_C2_reply_reconciliation 6 1 2 [(5, 3, 4)]).2.1 (by decide)).2
  · exact (claim_C2_reply_reconciliation 6 1 2 [(5, 3, 4)]).2.2.1
      (by constructor <;> decide)
  · exact (claim_C2_reply_reconciliation 8 1 2 witnessCache).2.2.2
      (by unfold witnessCache embeds_cache_capacity
          exact List.length_replicate 1000 _)
      (lruFind_replicate_ne (0, 0) 1000 (by decide))

/-- C3 (failing input): on `"!modulename abc"` — a single malformed token —
no resolution is ever invoked (`command_lookups` is empty), yet
`post_modules` is called with an empty modules list (`some []`), whose body
construction fails (`none` models the `IndexError` from `modules[0]`): the
bot crashes instead of replying "not found".  The multi-token half of the
claim does hold: `"!modulename abc def"` stays silent. -/
theorem claim_C3_single_token_crashes :
    command_lookups ("!modulename abc".data) = []
    ∧ command_posts (fun _ => none) ("!modulename abc".data) = some []
    ∧ post_modules_body [] = none
    ∧ command_posts (fun _ => none) ("!modulename abc def".data) = none := by
  refine ⟨by decide, by decide, rfl, by decide⟩

/-- C10: `post_modules` presupposes a non-empty modules list — on `[]` the
single-module branch is reached and `modules[0]` raises (modelled by
`post_modules_body [] = none`), and this call is reachable from the public
interface: a single valid command-mode token (`"abcd"`) that resolves to
nothing still triggers `post_modules` with `[]` (resolution was invoked
exactly once, on `"ABCD"`). -/
theorem claim_C10_post_modules_empty_raises :
    post_modules_body [] = none
    ∧ command_lookups ("!modulename abcd".data) = ["ABCD".data]
    ∧ command_posts (fun _ => none) ("!modulename abcd".data) = some [] := by
  refine ⟨rfl, by decide, by decide⟩

theorem is_really_active_all_fail (head : Nat → Except Unit HeadResponse)
    (u code : List Char) (h : ∀ k, head k = Except.error ())
    (retries retry_num : Nat) :
    is_really_active head (some u) code retries retry_num = some false := by
  have key : ∀ d rn, retries - rn ≤ d →
      is_really_active head (some u) code retries rn = some false := by
    intro d
    induction d with
    | zero =>
      intro rn hle
      rw [is_really_active, h rn]
      have hc : ¬ (rn + 1 ≤ retries) := by omega
      simp [hc]
    | succ d ih =>
      intro rn hle
      rw [is_really_active, h rn]
      by_cases hc : rn + 1 ≤ retries
      · simp only [hc, dif_pos]
        exact ih (rn + 1) (by omega)
      · simp [hc]
  exact key (retries - retry_num) retry_num (Nat.le_refl _)

/-- C4: a null url yields `None` at once, for every transport oracle (no
request is consulted); if every attempt fails in transport, the check
retries and finally returns `False` (not `None`); and with `retries=2`, two
transport failures followed by a successful third attempt yield that
attempt's verdict. -/
theorem claim_C4_liveness_null_and_retries
    (head : Nat → Except Unit HeadResponse) (u code : List Char)
    (retries retry_num : Nat) :
    is_really_active head none code retries retry_num = none
    ∧ ((∀ k, head k = Except.error ()) →
        is_really_active head (some u) code retries retry_num = some false)
    ∧ (∀ resp, head 0 = Except.error () → head 1 = Except.error () →
        head 2 = Except.ok resp →
        is_really_active head (some u) code 2 0 =
          some (strContains (pyLower code) (pyLower resp.url)
            && resp.status_code == 200)) := by
  refine ⟨?_, ?_, ?_⟩
  · rw [is_really_active]
  · intro h
    exact is_really_active_all_fail head u code h retries retry_num
  · intro resp h0 h1 h2
    rw [is_really_active, h0]
    norm_num
    rw [is_really_active, h1]
    norm_num
    rw [is_really_active, h2]

/-- Oracle whose every attempt fails in transport. -/
def headAllFailW : Nat → Except Unit HeadResponse := fun _ => Except.error ()

/-- Oracle failing on attempts 0 and 1, succeeding on attempt 2 with a
redirect URL that contains the code. -/
def headThirdOkW : Nat → Except Unit HeadResponse := fun k =>
  if k < 2 then Except.error ()
  else Except.ok ⟨"http://x/ab1c".data, 200⟩

/-- Witness for C4 at concrete oracles. -/
theorem claim_C4_witness :
    is_really_active headAllFailW (some "http://u".data) "ab1".data 2 0 =
      some false
    ∧ is_really_active headThirdOkW (some "http://u".data) "ab1".data 2 0 =
      some true := by
  constructor
  · exact (claim_C4_liveness_null_and_retries headAllFailW
      ("http://u".data) ("ab1".data) 2 0).2.1 (fun k => rfl)
  · have h := (claim_C4_liveness_null_and_retries headThirdOkW
      ("http://u".data) ("ab1".data) 2 0).2.2
      ⟨"http://x/ab1c".data, 200⟩ rfl rfl rfl
    rw [h]
    decide

/-- C5: when the HEAD request completes, the verdict is `True` exactly when
the final status is 200 and the final redirected URL contains the code as a
case-insensitive substring. -/
theorem claim_C5_liveness_verdict
    (head : Nat → Except Unit HeadResponse) (u code : List Char)
    (retries retry_num : Nat) (resp : HeadResponse)
    (h : head retry_num = Except.ok resp) :
    is_really_active head (some u) code retries retry_num = some true ↔
      resp.status_code = 200 ∧
        strContains (pyLower code) (pyLower resp.url) = true := by
  rw [is_really_active, h]
  simp only [Option.some.injEq, Bool.and_eq_true, beq_iff_eq]
  constructor
  · intro hx
    exact ⟨hx.2, hx.1⟩
  · intro hx
    exact ⟨hx.2, hx.1⟩

/-- Oracle that completes immediately with the qualification URL for B31
(the "inactive-actually-active" example of the test suite). -/
def headB31W : Nat → Except Unit HeadResponse := fun _ =>
  Except.ok ⟨"http://www.open.ac.uk/courses/qualifications/b31".data, 200⟩

/-- Witness for C5: a 200 response whose final URL contains the code
(case-insensitively) makes the check return `True`. -/
theorem claim_C5_witness :
    is_really_active headB31W
      (some "http://www.open.ac.uk/courses/qualifications/b31".data)
      ("B31".data) 2 0 = some true := by
  apply (claim_C5_liveness_verdict headB31W
    ("http://www.open.ac.uk/courses/qualifications/b31".data)
    ("B31".data) 2 0
    ⟨"http://www.open.ac.uk/courses/qualifications/b31".data, 200⟩ rfl).mpr
  constructor
  · rfl
  · decide

theorem collectBindings_eq_takeWhile (bs : List (Except Unit Binding)) :
    collectBindings bs =
      (bs.takeWhile (fun x => x.toOption.isSome)).filterMap Except.toOption := by
  induction bs with
  | nil => rfl
  | cons x rest ih =>
    cases x with
    | ok b => simp [collectBindings, List.takeWhile, Except.toOption, ih]
    | error e => simp [collectBindings, List.takeWhile, Except.toOption]

/-- C6 (amended): `query_data_open_ac_uk` catches a read timeout (yielding
`[]`) and JSON decoding/projection failures (yielding exactly the
well-formed prefix collected before the failure, `[]` when it precedes any
binding), but any other transport exception from `client.get` —
`httpx.ConnectError` and the like — propagates uncaught to the caller; the
archive-scrape layer (`get_module_title`, a bare `except Exception`)
returns `None` both on transport failure and on a regex miss, never
raising. -/
theorem claim_C6_amended_query_layers (bs : List (Except Unit Binding)) :
    query_data_open_ac_uk SparqlResponse.readTimeout = .ok []
    ∧ query_data_open_ac_uk SparqlResponse.badJson = .ok []
    ∧ query_data_open_ac_uk SparqlResponse.otherTransportError = .error ()
    ∧ (bs.head? = some (Except.error ()) →
        query_data_open_ac_uk (SparqlResponse.bindings bs) = .ok [])
    ∧ query_data_open_ac_uk (SparqlResponse.bindings bs)
        = .ok ((bs.takeWhile (fun x => x.toOption.isSome)).filterMap
            Except.toOption)
    ∧ get_module_title (Except.error ()) = none
    ∧ get_module_title (Except.ok []) = none := by
  refine ⟨rfl, rfl, rfl, ?_,
    congrArg Except.ok (collectBindings_eq_takeWhile bs), rfl, rfl⟩
  intro h
  cases bs with
  | nil => simp at h
  | cons x rest =>
    have hx : x = Except.error () := by simpa using h
    subst hx
    rfl

/-- C6 (counterexample to the claim as stated): a malformed response whose
first binding is well-formed and second is malformed makes
`query_data_open_ac_uk` return a non-empty list, not the empty result the
claim requires for every malformed response; and a transport failure other
than a read timeout (e.g. `httpx.ConnectError`) is not caught at all — the
exception propagates to the caller. -/
theorem claim_C6_counterexample :
    query_data_open_ac_uk (SparqlResponse.bindings
        [Except.ok ⟨"T".data, none⟩, Except.error ()])
      = .ok [⟨"T".data, none⟩]
    ∧ query_data_open_ac_uk (SparqlResponse.bindings
        [Except.ok ⟨"T".data, none⟩, Except.error ()]) ≠ .ok []
    ∧ query_data_open_ac_uk SparqlResponse.otherTransportError =
        .error () := by
  refine ⟨rfl, ?_, rfl⟩
  intro h
  exact absurd (Except.ok.inj h) (by decide)

/-- Witness for C6 at a concrete malformed-first response. -/
theorem claim_C6_witness :
    query_data_open_ac_uk (SparqlResponse.bindings [Except.error ()])
      = .ok [] :=
  (claim_C6_amended_query_layers [Except.error ()]).2.2.2.1 rfl

theorem map_self_of_fix {f : Char → Char} :
    ∀ l : List Char, (∀ c ∈ l, f c = c) → l.map f = l
  | [], _ => rfl
  | c :: r, h => by
    have hc : f c = c := h c (by simp)
    have hr : r.map f = r :=
      map_self_of_fix r (fun x hx => h x (by simp [hx]))
    simp [hc, hr]

theorem pyUpper_fix_of_upper {s : List Char} (c : List Char)
    (h : c = pyUpper s) : pyUpper c = c := by
  subst h
  exact pyUpper_idem s

theorem normalizeToken_upper_fix (t : List Char) :
    pyUpper (normalizeToken t) = normalizeToken t := by
  unfold normalizeToken pyUpper
  apply map_self_of_fix
  intro c hc
  have hmem : c ∈ t.map pyUpperChar := List.mem_of_mem_filter hc
  obtain ⟨a, _, rfl⟩ := List.mem_map.mp hmem
  exact pyUpperChar_idem a

/-- C7 (amended): both extraction modes produce an ordered sequence of
normalized (uppercased) candidate codes truncated to at most 5 — but the
sequence is NOT deduplicated: a repeated mention yields the code once per
occurrence. -/
theorem claim_C7_amended_extractor (content : List Char) :
    (inline_candidates content).length ≤ MODULES_COUNT_LIMIT
    ∧ (command_lookups content).length ≤ MODULES_COUNT_LIMIT
    ∧ (∀ c ∈ inline_candidates content, pyUpper c = c)
    ∧ (∀ c ∈ command_lookups content, pyUpper c = c) := by
  refine ⟨?_, ?_, ?_, ?_⟩
  · simp only [inline_candidates, inline_lookups, inline_matches,
      List.length_map]
    exact List.length_take_le _ _
  · calc (command_lookups content).length
        ≤ ((command_codes content).take MODULES_COUNT_LIMIT).length :=
          List.length_filterMap_le _ _
      _ ≤ MODULES_COUNT_LIMIT := List.length_take_le _ _
  · intro c hc
    simp only [inline_candidates, List.mem_map] at hc
    obtain ⟨m, _, rfl⟩ := hc
    exact pyUpper_idem m
  · intro c hc
    simp only [command_lookups, List.mem_filterMap] at hc
    obtain ⟨t, _, ht⟩ := hc
    by_cases hv : validCode (normalizeToken t) = true
    · simp only [hv, if_true, Option.some.injEq] at ht
      subst ht
      exact normalizeToken_upper_fix t
    · simp [hv] at ht

/-- C7 (counterexample to the claim as stated): the inline extractor does
not deduplicate — a message mentioning `!a1` twice yields the candidate
`A1` twice. -/
theorem claim_C7_counterexample :
    inline_candidates ("foo !a1 bar !a1".data) = ["A1".data, "A1".data]
    ∧ ¬ (inline_candidates ("foo !a1 bar !a1".data)).Nodup :=
  ⟨by decide, by decide⟩

/-- Witness for C7's amended statement at a concrete message. -/
theorem claim_C7_witness :
    (inline_candidates ("foo !a1 bar !a1".data)).length ≤ MODULES_COUNT_LIMIT
    ∧ (command_lookups ("!modulename ab12 cd34".data)).length
        ≤ MODULES_COUNT_LIMIT
    ∧ pyUpper ("A1".data) = "A1".data
    ∧ pyUpper ("AB12".data) = "AB12".data :=
  ⟨(claim_C7_amended_extractor ("foo !a1 bar !a1".data)).1,
    (claim_C7_amended_extractor ("!modulename ab12 cd34".data)).2.1,
    (claim_C7_amended_extractor ("foo !a1 bar !a1".data)).2.2.1
      ("A1".data) (by decide),
    (claim_C7_amended_extractor ("!modulename ab12 cd34".data)).2.2.2
      ("AB12".data) (by decide)⟩

/-- C8 (spec-modelled, the formatter of `oumodulesbot/main.py` is absent
from src/): one resolved module formats as `"{code}: {title}"`, with the
title a markdown link `[title](<url>)` exactly when a url is present and
the module is active or no liveness check was needed; two or more modules
format as one field per module (name = code, value = formatted title); and
the fixed deprecation suffix ends every reply. -/
theorem claim_C8_reply_formatting (m : ModuleInfo) (ms : List ModuleInfo) :
    (format_reply [m]).content =
        m.code ++ (": ".data) ++ format_title m ++ response_suffix
    ∧ (m.url = none ∨ m.active = some false → format_title m = m.title)
    ∧ (∀ u, m.url = some u → m.active ≠ some false →
        format_title m =
          ("[".data) ++ m.title ++ ("](<".data) ++ u ++ (">)".data))
    ∧ (2 ≤ ms.length →
        (format_reply ms).fields = ms.map (fun x => (x.code, format_title x)))
    ∧ response_suffix <:+ (format_reply ms).content := by
  refine ⟨?_, ?_, ?_, ?_, ?_⟩
  · simp [format_reply]
  · intro h
    cases h with
    | inl hu => simp [format_title, hu]
    | inr ha =>
      unfold format_title
      cases m.url with
      | none => rfl
      | some u => simp [ha]
  · intro u hu hna
    simp [format_title, hu, hna]
  · intro h2
    have hgt : ms.length > 1 := h2
    simp [format_reply, hgt]
  · unfold format_reply
    by_cases hlen : ms.length > 1
    · simp only [hlen, if_true]
      exact ⟨[], rfl⟩
    · simp only [hlen, if_false]
      cases ms with
      | nil => exact ⟨[], rfl⟩
      | cons m rest =>
        exact ⟨m.code ++ (": ".data) ++ format_title m, by
          simp [List.append_assoc]⟩

/-- Witness for C8 at the test suite's concrete examples: an active module
with a url renders as a link, an inactive url-less module as plain text,
both ending in the deprecation suffix. -/
theorem claim_C8_witness :
    format_title ⟨"A123".data, "Mocked active module".data,
        some ("fake_url1".data), some true⟩ =
      ("[Mocked active module](<fake_url1>)").data
    ∧ (format_reply [⟨"B321".data, "Mocked inactive module".data,
        none, some false⟩]).content =
      ("B321: Mocked inactive module").data ++ response_suffix
    ∧ (format_reply
        [⟨"A123".data, "T1".data, none, none⟩,
          ⟨"A012".data, "T2".data, none, none⟩]).fields =
      [("A123".data, "T1".data), ("A012".data, "T2".data)] := by
  refine ⟨?_, ?_, ?_⟩
  · rw [(claim_C8_reply_formatting
      ⟨"A123".data, "Mocked active module".data,
        some ("fake_url1".data), some true⟩ []).2.2.1
      ("fake_url1".data) rfl (by decide)]
    decide
  · rw [(claim_C8_reply_formatting
      ⟨"B321".data, "Mocked inactive module".data, none, some false⟩ []).1,
      (claim_C8_reply_formatting
      ⟨"B321".data, "Mocked inactive module".data, none, some false⟩
        []).2.1 (Or.inl rfl)]
    decide
  · rw [(claim_C8_reply_formatting ⟨"A123".data, "T1".data, none, none⟩
      [⟨"A123".data, "T1".data, none, none⟩,
        ⟨"A012".data, "T2".data, none, none⟩]).2.2.2.1 (by decide)]
    decide

/-- C9 (amended): the SPARQL resolver uppercases the code before building
the query filter — resolution depends only on the uppercased code — and the
command path uppercases before its archive lookup; the inline-mention path,
however, performs its archive lookup with the raw, unnormalized match
text. -/
theorem claim_C9_amended_normalization
    (oracle : List Char → QueryTag → List Binding)
    (code content : List Char) :
    find_module_or_qualification oracle code =
      find_module_or_qualification oracle (pyUpper code)
    ∧ (∀ c ∈ command_lookups content, pyUpper c = c) := by
  constructor
  · simp [find_module_or_qualification, pyUpper_idem]
  · intro c hc
    simp only [command_lookups, List.mem_filterMap] at hc
    obtain ⟨t, _, ht⟩ := hc
    by_cases hv : validCode (normalizeToken t) = true
    · simp only [hv, if_true, Option.some.injEq] at ht
      subst ht
      exact normalizeToken_upper_fix t
    · simp [hv] at ht

/-- C9 (counterexample to the claim as stated): the inline path of
`do_embeds` passes `module[1:]` to `get_module_title` without uppercasing —
the message `"foo !a1"` performs an archive-page lookup with `"a1"`, which
is not uppercase. -/
theorem claim_C9_counterexample :
    inline_lookups ("foo !a1".data) = ["a1".data]
    ∧ pyUpper ("a1".data) ≠ "a1".data :=
  ⟨by decide, by decide⟩

/-- Witness for C9's amended statement at concrete inputs. -/
theorem claim_C9_witness :
    find_module_or_qualification (fun _ _ => []) ("b31".data) =
      find_module_or_qualification (fun _ _ => []) (pyUpper ("b31".data))
    ∧ pyUpper ("AB12".data) = "AB12".data := by
  constructor
  · exact (claim_C9_amended_normalization (fun _ _ => [])
      ("b31".data) []).1
  · exact (claim_C9_amended_normalization (fun _ _ => [])
      ("b31".data) ("!modulename ab12".data)).2 ("AB12".data) (by decide)

end OUBot
